import Mathlib

/-!
# Submission workflow of the extractive text summarizer front end

A shallow embedding of the workflow logic of `frontend/src/App.jsx`,
`frontend/src/components/FileUpload.jsx` and
`frontend/src/components/SummaryControls.jsx`.

Every event handler is a function from the values it reads (the component
state captured by the render it belongs to, and its arguments) to the list of
effects it performs, in program order: calls of the React state setters and
calls into the environment (toast, alert, fetch, window.open, console).
Applying the setter calls of such a list to a state, one after the other,
gives the state after the handler.  The only suspension point is the request
of `handleSubmit`; what the request eventually yields is an argument of the
part of the handler that runs after it.

JavaScript values are modelled as far as the program observes them: strings
are sequences of UTF-16 code units, the body of a response is a JSON value.
-/

namespace Summarizer

/-! ## JavaScript strings and values -/

/-- A JavaScript string: its UTF-16 code units, in order. -/
abbrev JSString := List Nat

/-- UTF-16 code units of one Unicode scalar value. -/
def utf16Char (c : Char) : List Nat :=
  if c.toNat < 0x10000 then [c.toNat]
  else [0xD800 + (c.toNat - 0x10000) / 0x400, 0xDC00 + (c.toNat - 0x10000) % 0x400]

/-- The JavaScript string a source literal denotes. -/
def utf16 (s : String) : JSString :=
  s.toList.flatMap utf16Char

/-- A Number, kept by the two observations this program makes of one: whether
ToBoolean takes it as true (it is neither zero nor NaN) and the text ToString
gives for it. -/
structure JSNumber where
  truthy : Bool
  text : JSString

/-- A value a decoded JSON body or one of its properties can be; `undefined` is
what reading an absent property gives. -/
inductive JSVal where
  | undefined
  | null
  | bool (b : Bool)
  | num (n : JSNumber)
  | str (s : JSString)
  | arr (items : List JSVal)
  | obj (props : List (JSString × JSVal))

/-- What a failed operation throws, or a promise rejects with. -/
inductive Thrown where
  | typeError
  | syntaxError
  | uriError
  | other (reason : JSVal)

/-- ToBoolean, as applied by `||`, `&&` and `if`. -/
def JSVal.truthy : JSVal → Bool
  | .undefined => false
  | .null => false
  | .bool b => b
  | .num n => n.truthy
  | .str s => !s.isEmpty
  | .arr _ => true
  | .obj _ => true

/-- Own property `key` of a decoded JSON object; JSON.parse keeps the last of
several members with one name. -/
def lookupProp (key : JSString) : List (JSString × JSVal) → Option JSVal
  | [] => none
  | (k, v) :: rest =>
    match lookupProp key rest with
    | some w => some w
    | none => if k = key then some v else none

/-- The property read `v.key`, for a `key` that no built-in prototype
defines (so are the four names this program reads: summary, file_path,
download_name, error): a TypeError on null and undefined, the own property of
an object, undefined on anything else. -/
def JSVal.field (v : JSVal) (key : JSString) : Except Thrown JSVal :=
  match v with
  | .undefined => .error .typeError
  | .null => .error .typeError
  | .obj props => .ok ((lookupProp key props).getD .undefined)
  | _ => .ok .undefined

mutual
/-- ToString.  A decoded JSON object has no method of its own, so it gives
"[object Object]" through Object.prototype.toString, unless an own property
named toString (never callable in decoded JSON) hides that method: then no
primitive value can be had and a TypeError is thrown.  An array is joined. -/
def JSVal.toJSString : JSVal → Except Thrown JSString
  | .undefined => .ok (utf16 "undefined")
  | .null => .ok (utf16 "null")
  | .bool true => .ok (utf16 "true")
  | .bool false => .ok (utf16 "false")
  | .num n => .ok n.text
  | .str s => .ok s
  | .arr items => joinItems items
  | .obj props =>
    if (lookupProp (utf16 "toString") props).isSome then .error .typeError
    else .ok (utf16 "[object Object]")
/-- Array.prototype.join with the default separator, a comma. -/
def joinItems : List JSVal → Except Thrown JSString
  | [] => .ok []
  | [x] => itemText x
  | x :: y :: rest =>
    match itemText x with
    | .error err => .error err
    | .ok first =>
      match joinItems (y :: rest) with
      | .error err => .error err
      | .ok others => .ok (first ++ 44 :: others)
/-- Text of one array item inside join: empty for null and undefined, ToString
for anything else. -/
def itemText : JSVal → Except Thrown JSString
  | .undefined => .ok []
  | .null => .ok []
  | .bool true => .ok (utf16 "true")
  | .bool false => .ok (utf16 "false")
  | .num n => .ok n.text
  | .str s => .ok s
  | .arr items => joinItems items
  | .obj props =>
    if (lookupProp (utf16 "toString") props).isSome then .error .typeError
    else .ok (utf16 "[object Object]")
end

/-! ## encodeURIComponent -/

/-- Code units encodeURIComponent copies unchanged: ASCII letters, decimal
digits and the marks `- _ . ! ~ * ' ( )`. -/
def isUnescaped (c : Nat) : Bool :=
  (0x41 ≤ c && c ≤ 0x5A) || (0x61 ≤ c && c ≤ 0x7A) || (0x30 ≤ c && c ≤ 0x39) ||
  c == 0x2D || c == 0x5F || c == 0x2E || c == 0x21 || c == 0x7E || c == 0x2A ||
  c == 0x27 || c == 0x28 || c == 0x29

/-- Leading (high) surrogate code units. -/
def isLeadSurrogate (c : Nat) : Bool := 0xD800 ≤ c && c ≤ 0xDBFF

/-- Trailing (low) surrogate code units. -/
def isTrailSurrogate (c : Nat) : Bool := 0xDC00 ≤ c && c ≤ 0xDFFF

/-- Upper-case hexadecimal digit of the low four bits of `n`. -/
def hexDigit (n : Nat) : Nat :=
  if n % 16 < 10 then 0x30 + n % 16 else 0x41 + (n % 16 - 10)

/-- The escape `%XY` of one octet. -/
def percentOctet (o : Nat) : List Nat :=
  [0x25, hexDigit (o / 16), hexDigit o]

/-- UTF-8 octets of a code point. -/
def utf8Octets (cp : Nat) : List Nat :=
  if cp < 0x80 then [cp]
  else if cp < 0x800 then [0xC0 + cp / 0x40 % 0x20, 0x80 + cp % 0x40]
  else if cp < 0x10000 then
    [0xE0 + cp / 0x1000 % 0x10, 0x80 + cp / 0x40 % 0x40, 0x80 + cp % 0x40]
  else
    [0xF0 + cp / 0x40000 % 8, 0x80 + cp / 0x1000 % 0x40, 0x80 + cp / 0x40 % 0x40,
      0x80 + cp % 0x40]

/-- The escapes of all UTF-8 octets of a code point. -/
def percentEncode (cp : Nat) : List Nat :=
  (utf8Octets cp).flatMap percentOctet

/-- The code point a surrogate pair stands for. -/
def pairCodePoint (lead trail : Nat) : Nat :=
  (lead - 0xD800) * 0x400 + (trail - 0xDC00) + 0x10000

/-- The built-in encodeURIComponent on a string: unescaped code units are
copied, every other code point is replaced by the escapes of its UTF-8
octets, and a surrogate without its partner throws a URIError. -/
def encodeURIComponent : JSString → Except Thrown JSString
  | [] => .ok []
  | c :: rest =>
    if isUnescaped c then
      match encodeURIComponent rest with
      | .ok r => .ok (c :: r)
      | .error e => .error e
    else if isTrailSurrogate c then .error .uriError
    else if isLeadSurrogate c then
      match rest with
      | [] => .error .uriError
      | d :: rest2 =>
        if isTrailSurrogate d then
          match encodeURIComponent rest2 with
          | .ok r => .ok (percentEncode (pairCodePoint c d) ++ r)
          | .error e => .error e
        else .error .uriError
    else
      match encodeURIComponent rest with
      | .ok r => .ok (percentEncode c ++ r)
      | .error e => .error e

/-- String.prototype.isWellFormed: no surrogate without its partner. -/
def isWellFormed : JSString → Bool
  | [] => true
  | c :: rest =>
    if isTrailSurrogate c then false
    else if isLeadSurrogate c then
      match rest with
      | [] => false
      | d :: rest2 => isTrailSurrogate d && isWellFormed rest2
    else isWellFormed rest

/-! ## Component state (App.jsx, lines 14-23) -/

/-- A File object, by the attributes the program reads. -/
structure File where
  name : JSString
  type : JSString
  size : Nat

/-- The object stored by setDownloadInfo. -/
structure DownloadInfo where
  filePath : JSVal
  downloadName : JSVal

/-- A Number held as a parameter: NaN (`none`) or an exact value. -/
abbrev JSNum := Option Rat

/-- The summaryParams object. -/
structure SummaryParams where
  ratio : JSNum
  min : JSNum
  max : JSNum

/-- The state variables of App that take part in the workflow (the theme
flag darkMode does not). -/
structure AppState where
  file : Option File
  summary : JSVal
  loading : Bool
  error : JSVal
  downloadInfo : Option DownloadInfo
  summaryParams : SummaryParams

/-- The useState initial values. -/
def initialState : AppState where
  file := none
  summary := .str []
  loading := false
  error := .str []
  downloadInfo := none
  summaryParams := { ratio := some (3 / 10), min := some 3, max := some 10 }

/-- The request handed to fetch: address, method and the four form fields. -/
structure Request where
  url : JSString
  method : JSString
  file : File
  ratio : JSNum
  min : JSNum
  max : JSNum

/-- One effect of a handler: a state setter call or a call into the
environment. -/
inductive Effect where
  | setFile (f : File)
  | setSummary (v : JSVal)
  | setLoading (b : Bool)
  | setError (v : JSVal)
  | setDownloadInfo (d : Option DownloadInfo)
  | setSummaryParams (p : SummaryParams)
  | toastInfo (msg : JSString)
  | toastSuccess (msg : JSString)
  | toastError (msg : JSVal)
  | alert (msg : JSString)
  | fetch (req : Request)
  | windowOpen (url target : JSString)
  | consoleError (err : Thrown)
  | preventDefault
  | stopPropagation

/-- The state after one effect: a setter replaces its variable, anything else
leaves the state as it is. -/
def Effect.apply (s : AppState) : Effect → AppState
  | .setFile f => { s with file := some f }
  | .setSummary v => { s with summary := v }
  | .setLoading b => { s with loading := b }
  | .setError v => { s with error := v }
  | .setDownloadInfo d => { s with downloadInfo := d }
  | .setSummaryParams p => { s with summaryParams := p }
  | _ => s

/-- The state after a list of effects, applied in order. -/
def run (s : AppState) (effs : List Effect) : AppState :=
  effs.foldl Effect.apply s

/-- The states passed through while a list of effects is performed: the state
after each effect, in order. -/
def trace (s : AppState) : List Effect → List AppState
  | [] => []
  | e :: rest => e.apply s :: trace (e.apply s) rest

/-! ## App.jsx: the handlers -/

namespace App

/-- The handler handleFileChange (lines 48-54). -/
def handleFileChange (selectedFile : File) : List Effect :=
  [ .setFile selectedFile,
    .setSummary (.str []),
    .setError (.str []),
    .setDownloadInfo none,
    .toastInfo (utf16 "File \"" ++ selectedFile.name ++ utf16 "\" selected!") ]

/-- The three property names handleParamChange is called with. -/
inductive ParamName where
  | ratio
  | min
  | max

/-- The handler handleParamChange (lines 56-61): a copy of the summaryParams
of the current render with the one property replaced. -/
def handleParamChange (summaryParams : SummaryParams) (name : ParamName) (value : JSNum) :
    List Effect :=
  [ .setSummaryParams
      (match name with
       | .ratio => { summaryParams with ratio := value }
       | .min => { summaryParams with min := value }
       | .max => { summaryParams with max := value }) ]

/-- The message of the guard of handleSubmit. -/
def noFileMessage : JSString := utf16 "Please select a text file"

/-- The message stored for a failure response without a usable error. -/
def summarizationFailedMessage : JSString := utf16 "An error occurred during summarization"

/-- The message stored by the catch block. -/
def connectionFailedMessage : JSString :=
  utf16 "Failed to connect to the server. Please try again."

/-- A response as handleSubmit reads it: the ok flag of its status, and what
decoding its body as JSON gives or throws. -/
structure Response where
  ok : Bool
  json : Except Thrown JSVal

/-- What awaiting the request gives: a response, or the thrown rejection. -/
abbrev FetchResult := Except Thrown Response

/-- The request built from the file and parameters of the current render
(lines 74-84). -/
def summarizeRequest (file : File) (summaryParams : SummaryParams) : Request where
  url := utf16 "http://localhost:5000/api/summarize"
  method := utf16 "POST"
  file := file
  ratio := summaryParams.ratio
  min := summaryParams.min
  max := summaryParams.max

/-- The body of the try block after the request (lines 86-98): the effects
performed, and the exception that ended it early if one did. -/
def tryBlock (result : FetchResult) : List Effect × Option Thrown :=
  match result with
  | .error err => ([], some err)
  | .ok response =>
    match response.json with
    | .error err => ([], some err)
    | .ok data =>
      if response.ok then
        match data.field (utf16 "summary") with
        | .error err => ([], some err)
        | .ok summary =>
          match data.field (utf16 "file_path") with
          | .error err => ([.setSummary summary], some err)
          | .ok filePath =>
            match data.field (utf16 "download_name") with
            | .error err => ([.setSummary summary], some err)
            | .ok downloadName =>
              ([ .setSummary summary,
                 .setDownloadInfo (some { filePath := filePath, downloadName := downloadName }),
                 .toastSuccess (utf16 "Summary generated successfully!") ], none)
      else
        match data.field (utf16 "error") with
        | .error err => ([], some err)
        | .ok error =>
          let message := if error.truthy then error else .str summarizationFailedMessage
          ([.setError message, .toastError message], none)

/-- The catch block (lines 99-102). -/
def catchBlock (err : Thrown) : List Effect :=
  [ .setError (.str connectionFailedMessage),
    .toastError (.str connectionFailedMessage),
    .consoleError err ]

/-- The finally block (lines 103-105). -/
def finallyBlock : List Effect :=
  [.setLoading false]

/-- The part of handleSubmit that runs once the request has settled (lines
86-105). -/
def handleSubmitSettled (result : FetchResult) : List Effect :=
  match tryBlock result with
  | (effs, none) => effs ++ finallyBlock
  | (effs, some err) => effs ++ catchBlock err ++ finallyBlock

/-- The part of handleSubmit that runs at once, up to the request (lines
64-84); `file` and `summaryParams` are those of the current render. -/
def handleSubmitStart (file : Option File) (summaryParams : SummaryParams) : List Effect :=
  match file with
  | none => [.setError (.str noFileMessage), .toastError (.str noFileMessage)]
  | some f =>
    [ .setLoading true,
      .setError (.str []),
      .setSummary (.str []),
      .fetch (summarizeRequest f summaryParams) ]

/-- The handler handleSubmit (lines 63-106) from call to return, given what
its request settles to. -/
def handleSubmit (file : Option File) (summaryParams : SummaryParams) (result : FetchResult) :
    List Effect :=
  match file with
  | none => handleSubmitStart file summaryParams
  | some _ => handleSubmitStart file summaryParams ++ handleSubmitSettled result

/-- The fixed beginning of every download address. -/
def downloadBase : JSString := utf16 "http://localhost:5000/api/download/"

/-- The handler handleDownload (lines 108-116): evaluating the address can
throw, and then nothing has been done. -/
def handleDownload (downloadInfo : Option DownloadInfo) : Except Thrown (List Effect) :=
  match downloadInfo with
  | none => .ok []
  | some info =>
    match info.filePath.toJSString with
    | .error err => .error err
    | .ok filePath =>
      match encodeURIComponent filePath with
      | .error err => .error err
      | .ok encodedPath =>
        match info.downloadName.toJSString with
        | .error err => .error err
        | .ok downloadName =>
          match encodeURIComponent downloadName with
          | .error err => .error err
          | .ok encodedName =>
            .ok [ .windowOpen (downloadBase ++ encodedPath ++ utf16 "/" ++ encodedName)
                    (utf16 "_blank"),
                  .toastInfo (utf16 "Downloading summary...") ]

/-- The disabled property handed to SummaryControls (line 151). -/
def submitDisabled (s : AppState) : Bool :=
  s.file.isNone || s.loading

end App

/-! ## FileUpload.jsx -/

namespace FileUpload

/-- The message of the alert for a file of another type. -/
def wrongTypeMessage : JSString := utf16 "Please upload a .txt file"

/-- The change handler of the file input (lines 8-15); `files` is
e.target.files. -/
def handleFileChange (onFileChange : File → List Effect) (files : List File) : List Effect :=
  match files.head? with
  | some file =>
    if file.type = utf16 "text/plain" then onFileChange file
    else [.alert wrongTypeMessage]
  | none => []

/-- The drop handler (lines 22-34); `files` is e.dataTransfer.files, which
may be absent. -/
def handleDrop (onFileChange : File → List Effect) (files : Option (List File)) :
    List Effect :=
  [.preventDefault, .stopPropagation] ++
    (match files with
     | none => []
     | some list =>
       match list.head? with
       | none => []
       | some file =>
         if file.type = utf16 "text/plain" then onFileChange file
         else [.alert wrongTypeMessage])

end FileUpload

/-! ## SummaryControls.jsx -/

/-- Addition of Numbers: NaN stays NaN. -/
def JSNum.add (a b : JSNum) : JSNum :=
  match a, b with
  | some x, some y => some (x + y)
  | _, _ => none

/-- Subtraction of Numbers: NaN stays NaN. -/
def JSNum.sub (a b : JSNum) : JSNum :=
  match a, b with
  | some x, some y => some (x - y)
  | _, _ => none

/-- Math.max of two arguments: NaN if either is. -/
def mathMax (a b : JSNum) : JSNum :=
  match a, b with
  | some x, some y => some (max x y)
  | _, _ => none

/-- Math.min of two arguments: NaN if either is. -/
def mathMin (a b : JSNum) : JSNum :=
  match a, b with
  | some x, some y => some (min x y)
  | _, _ => none

/-- The comparison `a <= b` of Numbers: false when either is NaN. -/
def JSNum.le (a b : JSNum) : Bool :=
  match a, b with
  | some x, some y => decide (x ≤ y)
  | _, _ => false

/-- The result of parseInt as a Number: NaN or an integer. -/
def ofParseInt (parsed : Option Int) : JSNum :=
  parsed.map fun n => (n : Rat)

namespace SummaryControls

/-- The user actions on the parameter controls.  The range input (min 0.1,
max 0.9, step 0.1) offers nine positions; a typed number arrives as what
parseInt makes of the text of the input, NaN (`none`) included. -/
inductive Control where
  | ratioSlider (position : Fin 9)
  | minDecrement
  | minTyped (parsed : Option Int)
  | minIncrement
  | maxDecrement
  | maxTyped (parsed : Option Int)
  | maxIncrement

/-- The onChange and onClick callbacks of the parameter controls (lines
25-117), with `params` and `onParamChange` the properties of the current
render. -/
def onControl (params : SummaryParams) (onParamChange : App.ParamName → JSNum → List Effect) :
    Control → List Effect
  | .ratioSlider position => onParamChange .ratio (some ((position.val + 1 : Rat) / 10))
  | .minDecrement => onParamChange .min (mathMax (some 1) (params.min.sub (some 1)))
  | .minTyped parsed => onParamChange .min (ofParseInt parsed)
  | .minIncrement => onParamChange .min (mathMin (some 20) (params.min.add (some 1)))
  | .maxDecrement => onParamChange .max (mathMax params.min (params.max.sub (some 1)))
  | .maxTyped parsed => onParamChange .max (ofParseInt parsed)
  | .maxIncrement => onParamChange .max (mathMin (some 50) (params.max.add (some 1)))

end SummaryControls

/-! ## The component as a transition system -/

/-- What can happen to the mounted component: a user action wired to a
handler (App.jsx, lines 141-153 and 188-192), or the settling of a request. -/
inductive Event where
  | browse (files : List File)
  | drop (files : Option (List File))
  | control (c : SummaryControls.Control)
  | submit
  | settle (result : App.FetchResult)
  | download

/-- The component together with the requests that have not settled yet,
oldest first. -/
structure World where
  app : AppState
  inFlight : List Request

/-- The requests among a list of effects. -/
def requestsOf : List Effect → List Request
  | [] => []
  | .fetch req :: rest => req :: requestsOf rest
  | _ :: rest => requestsOf rest

/-- The mounted component before any event. -/
def World.initial : World where
  app := initialState
  inFlight := []

/-- One event.  A submit runs handleSubmit up to its request; a settle
resumes the oldest suspended handleSubmit and does nothing when no request is
in flight; download changes no state. -/
def World.step (w : World) : Event → World
  | .browse files =>
    { w with app := run w.app (FileUpload.handleFileChange App.handleFileChange files) }
  | .drop files =>
    { w with app := run w.app (FileUpload.handleDrop App.handleFileChange files) }
  | .control c =>
    let effs := SummaryControls.onControl w.app.summaryParams
      (App.handleParamChange w.app.summaryParams) c
    { w with app := run w.app effs }
  | .submit =>
    let effs := App.handleSubmitStart w.app.file w.app.summaryParams
    { app := run w.app effs, inFlight := w.inFlight ++ requestsOf effs }
  | .settle result =>
    match w.inFlight with
    | [] => w
    | _ :: rest => { app := run w.app (App.handleSubmitSettled result), inFlight := rest }
  | .download => w

/-- The world after a list of events. -/
def World.steps (w : World) (events : List Event) : World :=
  events.foldl World.step w

/-! ## Frames: which effects leave which state variable alone -/

/-- Effects that do not write the busy flag. -/
def Effect.keepsLoading : Effect → Bool
  | .setLoading _ => false
  | _ => true

/-- Effects that do not write the held file. -/
def Effect.keepsFile : Effect → Bool
  | .setFile _ => false
  | _ => true

/-- The sample file of scenario A: doc.txt, text/plain, 2048 bytes. -/
def docTxt : File where
  name := utf16 "doc.txt"
  type := utf16 "text/plain"
  size := 2048

/-- The success body of scenario B. -/
def scenarioBBody : JSVal :=
  .obj [ (utf16 "summary", .str (utf16 "S1. S2.")),
         (utf16 "file_path", .str (utf16 "abc")),
         (utf16 "download_name", .str (utf16 "doc_summary.txt")) ]

/-- The failure body of scenario C. -/
def scenarioCBody : JSVal :=
  .obj [(utf16 "error", .str (utf16 "file too short"))]

/-- A state that holds the sample file and is otherwise initial. -/
def heldState : AppState :=
  { initialState with file := some docTxt }

/-- The state after a whole run of handleSubmit, from the call in state `s`
to its return, when its request settles to `result`. -/
def App.afterSubmit (s : AppState) (result : App.FetchResult) : AppState :=
  run s (App.handleSubmit s.file s.summaryParams result)

/-- A candidate of another content type: report.pdf, application/pdf. -/
def reportPdf : File where
  name := utf16 "report.pdf"
  type := utf16 "application/pdf"
  size := 4096

/-- The state a valid selection of `file` leads to from `s`: the file held,
the outcome clean, everything else as in `s`. -/
def selected (s : AppState) (file : File) : AppState :=
  { s with file := some file, summary := .str [], error := .str [], downloadInfo := none }

/-- The controls whose value is typed by the user rather than computed by the
callback. -/
def SummaryControls.Control.isTyped : SummaryControls.Control → Bool
  | .minTyped _ => true
  | .maxTyped _ => true
  | _ => false

/-- The ranges of the three parameters taken one by one: all three are
numbers, 0.1 <= ratio <= 0.9, 1 <= min <= 20 and max <= 50. -/
def withinRanges (p : SummaryParams) : Bool :=
  match p.ratio, p.min, p.max with
  | some r, some m, some M =>
    decide (1 / 10 ≤ r) && decide (r ≤ 9 / 10) && decide (1 ≤ m) && decide (m ≤ 20) &&
      decide (M ≤ 50)
  | _, _, _ => false

/-- The events of scenario B followed by scenario C: the sample file is
selected, a submission succeeds, a second submission fails. -/
def successThenFailure : List Event :=
  [ .browse [docTxt],
    .submit,
    .settle (.ok { ok := true, json := .ok scenarioBBody }),
    .submit,
    .settle (.ok { ok := false, json := .ok scenarioCBody }) ]

/-- Whether event `e` may happen in world `w` when a submission starts only
with the submit control enabled or with no file held; every other event may
always happen. -/
def Event.admitted (w : World) : Event → Bool
  | .submit => !App.submitDisabled w.app || w.app.file.isNone
  | _ => true

/-- Whether each event of a list may happen, in the above sense, in the world
it meets. -/
def World.admits (w : World) : List Event → Bool
  | [] => true
  | e :: rest => e.admitted w && (w.step e).admits rest

/-- What admitted events keep true of the world: at most one request is in
flight, the busy flag is set exactly while one is, summary text and error
message are empty and a file is held while one is, a summary text needs a held
file, and summary text and error message are not both non-empty. -/
structure World.Consistent (w : World) : Prop where
  atMostOne : w.inFlight.length ≤ 1
  busyIff : w.app.loading = true ↔ w.inFlight ≠ []
  busyClean : w.app.loading = true → w.app.summary = .str [] ∧ w.app.error = .str []
  busyFile : w.app.loading = true → w.app.file ≠ none
  summaryFile : w.app.file = none → w.app.summary = .str []
  notBoth : w.app.summary = .str [] ∨ w.app.error = .str []

/-- Events that run the sample file through a failed submission, a new
selection and a successful submission, each submit with the control enabled,
after a submit attempted with no file held. -/
def admittedRun : List Event :=
  [ .submit,
    .browse [docTxt],
    .submit,
    .settle (.ok { ok := false, json := .ok scenarioCBody }),
    .drop (some [docTxt]),
    .control .minIncrement,
    .submit,
    .settle (.ok { ok := true, json := .ok scenarioBBody }) ]

/-- A second plain-text file: notes.txt, text/plain, 512 bytes. -/
def notesTxt : File where
  name := utf16 "notes.txt"
  type := utf16 "text/plain"
  size := 512

/-- Whether event `e` may happen in world `w` when a submission starts only
with a file held and the busy flag clear (the submit control enabled); every
other event may always happen. -/
def Event.startsIdle (w : World) : Event → Bool
  | .submit => !App.submitDisabled w.app
  | _ => true

/-- Whether each event of a list may happen, in the above sense, in the world
it meets. -/
def World.startsIdle (w : World) : List Event → Bool
  | [] => true
  | e :: rest => e.startsIdle w && (w.step e).startsIdle rest

/-- Whether event `e` may happen in world `w` when, beyond that, a file is
selected only while the busy flag is clear. -/
def Event.waits (w : World) : Event → Bool
  | .submit => !App.submitDisabled w.app
  | .browse _ => !w.app.loading
  | .drop _ => !w.app.loading
  | _ => true

/-- Whether each event of a list may happen, in the above sense, in the world
it meets. -/
def World.waits (w : World) : List Event → Bool
  | [] => true
  | e :: rest => e.waits w && (w.step e).waits rest

/-- The file the latest settled request was sent with, after event `e` in
world `w`: the file of the request that `e` settles, or the one recorded so
far. -/
def World.originAfter (w : World) (origin : Option File) : Event → Option File
  | .settle _ =>
    match w.inFlight with
    | [] => origin
    | req :: _ => some req.file
  | _ => origin

/-- The file the latest settled request was sent with, after a list of
events. -/
def World.originOf (w : World) (origin : Option File) : List Event → Option File
  | [] => origin
  | e :: rest => (w.step e).originOf (w.originAfter origin e) rest

/-- Whether the state shows something a submission stores: a summary text or
an error message other than the empty string, or a download descriptor. -/
def holdsResult (s : AppState) : Prop :=
  s.summary ≠ .str [] ∨ s.error ≠ .str [] ∨ s.downloadInfo ≠ none

/-- The sample file is selected and submitted, notes.txt is dropped while the
request is in flight, then the request yields the success body. -/
def selectionInFlight : List Event :=
  [ .browse [docTxt],
    .submit,
    .drop (some [notesTxt]),
    .settle (.ok { ok := true, json := .ok scenarioBBody }) ]

/-- The sample file is submitted with success, notes.txt is selected after
that and submitted with the failure body. -/
def selectionBetween : List Event :=
  [ .browse [docTxt],
    .submit,
    .settle (.ok { ok := true, json := .ok scenarioBBody }),
    .browse [notesTxt],
    .submit,
    .settle (.ok { ok := false, json := .ok scenarioCBody }) ]

/-- What the events keep true of a world and the recorded origin when files
are selected only while the busy flag is clear: the world is consistent, a
request in flight was sent with the held file, and what a submission has
stored comes from a request sent with the held file. -/
structure World.Attributed (w : World) (origin : Option File) : Prop where
  consistent : w.Consistent
  pending : ∀ req ∈ w.inFlight, some req.file = w.app.file
  belongs : holdsResult w.app → origin = w.app.file

/-! ## General lemmas on effect lists -/

theorem run_append (s : AppState) (a b : List Effect) :
    run s (a ++ b) = run (run s a) b := by
  simp [run, List.foldl_append]

theorem trace_append (s : AppState) (a b : List Effect) :
    trace s (a ++ b) = trace s a ++ trace (run s a) b := by
  induction a generalizing s with
  | nil => simp [trace, run]
  | cons e rest ih => simp [trace, run, ih]

theorem trace_dropLast_concat (s : AppState) (a : List Effect) (e : Effect) :
    (trace s (a ++ [e])).dropLast = trace s a := by
  rw [trace_append]
  simp [trace]

theorem apply_keepsLoading (s : AppState) (e : Effect) (h : e.keepsLoading = true) :
    (e.apply s).loading = s.loading := by
  cases e <;> simp_all [Effect.apply, Effect.keepsLoading]

theorem apply_keepsFile (s : AppState) (e : Effect) (h : e.keepsFile = true) :
    (e.apply s).file = s.file := by
  cases e <;> simp_all [Effect.apply, Effect.keepsFile]

theorem trace_keepsLoading (s : AppState) (effs : List Effect)
    (h : ∀ e ∈ effs, e.keepsLoading = true) :
    ∀ st ∈ trace s effs, st.loading = s.loading := by
  induction effs generalizing s with
  | nil => simp [trace]
  | cons e rest ih =>
    intro st hst
    simp only [trace, List.mem_cons] at hst
    have he := apply_keepsLoading s e (h e (by simp))
    rcases hst with rfl | hst
    · exact he
    · rw [ih (e.apply s) (fun x hx => h x (by simp [hx])) st hst, he]

theorem run_keepsFile (s : AppState) (effs : List Effect)
    (h : ∀ e ∈ effs, e.keepsFile = true) :
    (run s effs).file = s.file := by
  induction effs generalizing s with
  | nil => simp [run]
  | cons e rest ih =>
    have he := apply_keepsFile s e (h e (by simp))
    have := ih (e.apply s) (fun x hx => h x (by simp [hx]))
    simp only [run, List.foldl_cons] at this ⊢
    rw [this, he]

/-! ## The settled part of handleSubmit -/

theorem tryBlock_frame (result : App.FetchResult) :
    ∀ e ∈ (App.tryBlock result).1, e.keepsLoading = true ∧ e.keepsFile = true := by
  unfold App.tryBlock
  intro e he
  repeat' split at he
  all_goals simp at he
  all_goals (try rcases he with rfl | rfl | rfl)
  all_goals simp [Effect.keepsLoading, Effect.keepsFile]

/-- The settled part is some effects that touch neither the busy flag nor the
file, followed by the one write of the finally block. -/
theorem handleSubmitSettled_shape (result : App.FetchResult) :
    ∃ body, App.handleSubmitSettled result = body ++ [.setLoading false] ∧
      ∀ e ∈ body, e.keepsLoading = true ∧ e.keepsFile = true := by
  have hframe := tryBlock_frame result
  unfold App.handleSubmitSettled
  rcases h : App.tryBlock result with ⟨effs, _ | err⟩
  · rw [h] at hframe
    exact ⟨effs, by simp [App.finallyBlock], hframe⟩
  · rw [h] at hframe
    refine ⟨effs ++ App.catchBlock err, by simp [App.finallyBlock], ?_⟩
    intro e he
    rcases List.mem_append.mp he with he | he
    · exact hframe e he
    · simp [App.catchBlock] at he
      rcases he with rfl | rfl | rfl <;> simp [Effect.keepsLoading, Effect.keepsFile]

/-! ## Claims -/

/-- C1: for a submit() started with a Document held, whatever the request
settles to, the busy flag is true in every state from the first write of the
handler (before the request is issued) up to the last state before the final
write, and false in the final state; the Document is the one held at the
start, so the submit control is enabled again. -/
theorem submit_busy_until_settled (s : AppState) (f : File) (result : App.FetchResult)
    (hfile : s.file = some f) :
    App.handleSubmit s.file s.summaryParams result
      = App.handleSubmitStart s.file s.summaryParams ++ App.handleSubmitSettled result ∧
    (∀ st ∈ trace s (App.handleSubmitStart s.file s.summaryParams), st.loading = true) ∧
    (∀ st ∈ (trace (run s (App.handleSubmitStart s.file s.summaryParams))
        (App.handleSubmitSettled result)).dropLast, st.loading = true) ∧
    (run s (App.handleSubmit s.file s.summaryParams result)).loading = false ∧
    (run s (App.handleSubmit s.file s.summaryParams result)).file = some f ∧
    App.submitDisabled (run s (App.handleSubmit s.file s.summaryParams result)) = false := by
  obtain ⟨body, hbody, hframe⟩ := handleSubmitSettled_shape result
  have hstart : App.handleSubmitStart s.file s.summaryParams =
      [.setLoading true, .setError (.str []), .setSummary (.str []),
        .fetch (App.summarizeRequest f s.summaryParams)] := by
    simp [hfile, App.handleSubmitStart]
  have hwhole : App.handleSubmit s.file s.summaryParams result
      = App.handleSubmitStart s.file s.summaryParams ++ App.handleSubmitSettled result := by
    simp [hfile, App.handleSubmit]
  have hs1load : (run s (App.handleSubmitStart s.file s.summaryParams)).loading = true := by
    simp [hstart, run, Effect.apply]
  have hs1file : (run s (App.handleSubmitStart s.file s.summaryParams)).file = some f := by
    rw [hstart]
    simp [run, Effect.apply, hfile]
  have hload : (run s (App.handleSubmit s.file s.summaryParams result)).loading = false := by
    rw [hwhole, hbody, run_append, run_append]
    simp [run, Effect.apply]
  have hkeep : (run s (App.handleSubmit s.file s.summaryParams result)).file = some f := by
    rw [hwhole, hbody, run_append, run_append]
    simp only [run, List.foldl_cons, List.foldl_nil, Effect.apply]
    have := run_keepsFile (run s (App.handleSubmitStart s.file s.summaryParams)) body
      (fun e he => (hframe e he).2)
    simp only [run] at this hs1file
    rw [this, hs1file]
  refine ⟨hwhole, ?_, ?_, hload, hkeep, ?_⟩
  · intro st hst
    rw [hstart] at hst
    simp [trace, Effect.apply] at hst
    rcases hst with rfl | rfl | rfl | rfl <;> rfl
  · intro st hst
    rw [hbody, trace_dropLast_concat] at hst
    rw [trace_keepsLoading _ body (fun e he => (hframe e he).1) st hst, hs1load]
  · simp [App.submitDisabled, hload, hkeep]

/-- C1, at scenario B: the sample file is held and the request yields the
success body. -/
theorem submit_busy_until_settled_witness :
    heldState.file = some docTxt ∧
    (∀ st ∈ trace heldState (App.handleSubmitStart heldState.file heldState.summaryParams),
      st.loading = true) ∧
    (run heldState (App.handleSubmit heldState.file heldState.summaryParams
      (.ok { ok := true, json := .ok scenarioBBody }))).loading = false :=
  have h := submit_busy_until_settled heldState docTxt
    (.ok { ok := true, json := .ok scenarioBBody }) rfl
  ⟨rfl, h.2.1, h.2.2.2.1⟩

/-- C2: for a submit() with a Document held whose response has a success
status and a body with summary `sm`, file_path `p` and download_name `d`, the
final state has summary `sm`, download descriptor (`p`, `d`), the empty error
message and the busy flag false. -/
theorem submit_success_stores_outcome (s : AppState) (f : File) (data sm p d : JSVal)
    (hfile : s.file = some f)
    (hsm : data.field (utf16 "summary") = .ok sm)
    (hp : data.field (utf16 "file_path") = .ok p)
    (hd : data.field (utf16 "download_name") = .ok d) :
    (App.afterSubmit s (.ok { ok := true, json := .ok data })).summary = sm ∧
    (App.afterSubmit s (.ok { ok := true, json := .ok data })).downloadInfo
      = some { filePath := p, downloadName := d } ∧
    (App.afterSubmit s (.ok { ok := true, json := .ok data })).error = .str [] ∧
    (App.afterSubmit s (.ok { ok := true, json := .ok data })).loading = false := by
  simp [App.afterSubmit, App.handleSubmit, App.handleSubmitStart, App.handleSubmitSettled,
    App.tryBlock, App.finallyBlock, hfile, hsm, hp, hd, run, Effect.apply]

/-- C2, at scenario B: summary "S1. S2.", file_path "abc", download_name
"doc_summary.txt". -/
theorem submit_success_stores_outcome_witness :
    heldState.file = some docTxt ∧
    (App.afterSubmit heldState (.ok { ok := true, json := .ok scenarioBBody })).summary
      = .str (utf16 "S1. S2.") ∧
    (App.afterSubmit heldState (.ok { ok := true, json := .ok scenarioBBody })).downloadInfo
      = some { filePath := .str (utf16 "abc"), downloadName := .str (utf16 "doc_summary.txt") } ∧
    (App.afterSubmit heldState (.ok { ok := true, json := .ok scenarioBBody })).error = .str [] ∧
    (App.afterSubmit heldState (.ok { ok := true, json := .ok scenarioBBody })).loading = false :=
  ⟨rfl, submit_success_stores_outcome heldState docTxt scenarioBBody (.str (utf16 "S1. S2."))
    (.str (utf16 "abc")) (.str (utf16 "doc_summary.txt")) rfl rfl rfl rfl⟩

/-- C3, as stated, fails: a failure response whose body `{}` carries no error
message stores "An error occurred during summarization", which is not the
message a transport failure stores. -/
theorem failure_without_message_is_not_connectivity :
    (App.afterSubmit heldState (.ok { ok := false, json := .ok (.obj []) })).error
      = .str (utf16 "An error occurred during summarization") ∧
    (App.afterSubmit heldState (.error .typeError)).error
      = .str (utf16 "Failed to connect to the server. Please try again.") ∧
    (App.afterSubmit heldState (.ok { ok := false, json := .ok (.obj []) })).error
      ≠ (App.afterSubmit heldState (.error .typeError)).error := by
  refine ⟨rfl, rfl, ?_⟩
  intro h
  have h2 : utf16 "An error occurred during summarization"
      = utf16 "Failed to connect to the server. Please try again." := by
    injection h
  revert h2
  decide

/-- C3, amended: for a submit() with a Document held whose response has a
failure status and a body on which the property error can be read (any body
but null) with value `v`, the stored error message is `v` when `v` is truthy
and "An error occurred during summarization" otherwise; in both cases the
summary text is empty and the busy flag is false. -/
theorem submit_failure_stores_message (s : AppState) (f : File) (data v : JSVal)
    (hfile : s.file = some f)
    (hv : data.field (utf16 "error") = .ok v) :
    (App.afterSubmit s (.ok { ok := false, json := .ok data })).error
      = (if v.truthy then v else .str App.summarizationFailedMessage) ∧
    (App.afterSubmit s (.ok { ok := false, json := .ok data })).summary = .str [] ∧
    (App.afterSubmit s (.ok { ok := false, json := .ok data })).loading = false := by
  simp [App.afterSubmit, App.handleSubmit, App.handleSubmitStart, App.handleSubmitSettled,
    App.tryBlock, App.finallyBlock, hfile, hv, run, Effect.apply]

/-- C3, at scenario C: the body with error "file too short" gives that
message. -/
theorem submit_failure_stores_message_witness :
    heldState.file = some docTxt ∧
    (App.afterSubmit heldState (.ok { ok := false, json := .ok scenarioCBody })).error
      = .str (utf16 "file too short") :=
  ⟨rfl, (submit_failure_stores_message heldState docTxt scenarioCBody
    (.str (utf16 "file too short")) rfl rfl).1⟩

/-- C4: for a submit() with a Document held in which the request throws, or
the decoding of the body of its response throws (whatever the status), the
final state has the error message "Failed to connect to the server. Please
try again.", the empty summary text and the busy flag false, whatever was
thrown. -/
theorem submit_throw_stores_fallback (s : AppState) (f : File) (err : Thrown) (ok : Bool)
    (hfile : s.file = some f) :
    ((App.afterSubmit s (.error err)).error = .str App.connectionFailedMessage ∧
      (App.afterSubmit s (.error err)).summary = .str [] ∧
      (App.afterSubmit s (.error err)).loading = false) ∧
    ((App.afterSubmit s (.ok { ok := ok, json := .error err })).error
        = .str App.connectionFailedMessage ∧
      (App.afterSubmit s (.ok { ok := ok, json := .error err })).summary = .str [] ∧
      (App.afterSubmit s (.ok { ok := ok, json := .error err })).loading = false) := by
  simp [App.afterSubmit, App.handleSubmit, App.handleSubmitStart, App.handleSubmitSettled,
    App.tryBlock, App.catchBlock, App.finallyBlock, hfile, run, Effect.apply]

/-- C4, at scenario D: the request of the sample file is rejected. -/
theorem submit_throw_stores_fallback_witness :
    heldState.file = some docTxt ∧
    (App.afterSubmit heldState (.error .typeError)).error
      = .str (utf16 "Failed to connect to the server. Please try again.") ∧
    (App.afterSubmit heldState (.ok { ok := true, json := .error .syntaxError })).error
      = .str (utf16 "Failed to connect to the server. Please try again.") :=
  ⟨rfl, (submit_throw_stores_fallback heldState docTxt .typeError true rfl).1.1,
    (submit_throw_stores_fallback heldState docTxt .syntaxError true rfl).2.1⟩

/-- C5: in a state with no Document held, submit() only stores and shows the
message "Please select a text file": it issues no request, writes the busy
flag nowhere, and leaves every state variable but the error message as it
was. -/
theorem submit_without_file (s : AppState) (result : App.FetchResult)
    (hfile : s.file = none) :
    App.handleSubmit s.file s.summaryParams result
      = [.setError (.str App.noFileMessage), .toastError (.str App.noFileMessage)] ∧
    requestsOf (App.handleSubmit s.file s.summaryParams result) = [] ∧
    (∀ e ∈ App.handleSubmit s.file s.summaryParams result, e.keepsLoading = true) ∧
    (∀ st ∈ trace s (App.handleSubmit s.file s.summaryParams result), st.loading = s.loading) ∧
    App.afterSubmit s result = { s with error := .str App.noFileMessage } := by
  have heffs : App.handleSubmit s.file s.summaryParams result
      = [.setError (.str App.noFileMessage), .toastError (.str App.noFileMessage)] := by
    simp [App.handleSubmit, App.handleSubmitStart, hfile]
  have hkeep : ∀ e ∈ App.handleSubmit s.file s.summaryParams result, e.keepsLoading = true := by
    intro e he
    rw [heffs] at he
    simp at he
    rcases he with rfl | rfl <;> rfl
  refine ⟨heffs, ?_, hkeep, trace_keepsLoading s _ hkeep, ?_⟩
  · rw [heffs]
    rfl
  · simp only [App.afterSubmit]
    rw [heffs]
    rfl

/-- C5, at the initial state, which holds no Document. -/
theorem submit_without_file_witness :
    initialState.file = none ∧
    requestsOf (App.handleSubmit initialState.file initialState.summaryParams
      (.error .typeError)) = [] ∧
    (App.afterSubmit initialState (.error .typeError)).error
      = .str (utf16 "Please select a text file") ∧
    (App.afterSubmit initialState (.error .typeError)).loading = false :=
  have h := submit_without_file initialState (.error .typeError) rfl
  ⟨rfl, h.2.1, by rw [h.2.2.2.2]; rfl, by rw [h.2.2.2.2]; rfl⟩

/-- C6: a candidate whose content type is not exactly "text/plain", offered
by browse or by drop, never reaches the acceptance handler (the effects are
the alert alone, whatever the handler is), so the state, with the held
Document, summary text, error message, download descriptor and busy flag, is
unchanged; and on every list of candidates the drop handler does what the
browse handler does, after its two calls on the event. -/
theorem select_rejects_other_types (s : AppState) (onFileChange : File → List Effect)
    (file : File) (rest : List File) (htype : file.type ≠ utf16 "text/plain") :
    FileUpload.handleFileChange onFileChange (file :: rest)
      = [.alert FileUpload.wrongTypeMessage] ∧
    FileUpload.handleDrop onFileChange (some (file :: rest))
      = [.preventDefault, .stopPropagation, .alert FileUpload.wrongTypeMessage] ∧
    run s (FileUpload.handleFileChange onFileChange (file :: rest)) = s ∧
    run s (FileUpload.handleDrop onFileChange (some (file :: rest))) = s ∧
    (∀ files : List File, FileUpload.handleDrop onFileChange (some files)
      = [.preventDefault, .stopPropagation] ++ FileUpload.handleFileChange onFileChange files) := by
  have hbrowse : FileUpload.handleFileChange onFileChange (file :: rest)
      = [.alert FileUpload.wrongTypeMessage] := by
    simp [FileUpload.handleFileChange, htype]
  have hdrop : FileUpload.handleDrop onFileChange (some (file :: rest))
      = [.preventDefault, .stopPropagation, .alert FileUpload.wrongTypeMessage] := by
    simp [FileUpload.handleDrop, htype]
  refine ⟨hbrowse, hdrop, ?_, ?_, ?_⟩
  · rw [hbrowse]; rfl
  · rw [hdrop]; rfl
  · intro files
    cases files <;> simp [FileUpload.handleDrop, FileUpload.handleFileChange]

/-- C6, at a PDF offered while the sample file is held. -/
theorem select_rejects_other_types_witness :
    reportPdf.type ≠ utf16 "text/plain" ∧
    run heldState (FileUpload.handleFileChange App.handleFileChange [reportPdf]) = heldState ∧
    run heldState (FileUpload.handleDrop App.handleFileChange (some [reportPdf])) = heldState :=
  have h := select_rejects_other_types heldState App.handleFileChange reportPdf [] (by decide)
  ⟨by decide, h.2.2.1, h.2.2.2.1⟩

/-- C7: a candidate with content type "text/plain", offered by browse or by
drop in any state, becomes the held Document and the outcome becomes clean
(summary text and error message empty, no download descriptor) while the
parameters and the busy flag stay; selecting once more, with nothing in
between, gives the clean outcome again. -/
theorem select_plain_text_resets (s : AppState) (file : File) (rest : List File)
    (htype : file.type = utf16 "text/plain") :
    run s (FileUpload.handleFileChange App.handleFileChange (file :: rest)) = selected s file ∧
    run s (FileUpload.handleDrop App.handleFileChange (some (file :: rest))) = selected s file ∧
    (selected s file).file = some file ∧
    (selected s file).summary = .str [] ∧
    (selected s file).error = .str [] ∧
    (selected s file).downloadInfo = none ∧
    (selected s file).summaryParams = s.summaryParams ∧
    run (selected s file) (FileUpload.handleFileChange App.handleFileChange (file :: rest))
      = selected s file ∧
    run (selected s file) (FileUpload.handleDrop App.handleFileChange (some (file :: rest)))
      = selected s file := by
  have hbrowse : FileUpload.handleFileChange App.handleFileChange (file :: rest)
      = App.handleFileChange file := by
    simp [FileUpload.handleFileChange, htype]
  have hdrop : FileUpload.handleDrop App.handleFileChange (some (file :: rest))
      = [.preventDefault, .stopPropagation] ++ App.handleFileChange file := by
    simp [FileUpload.handleDrop, htype]
  rw [hbrowse, hdrop]
  refine ⟨rfl, rfl, rfl, rfl, rfl, rfl, rfl, rfl, rfl⟩

/-- C7, at scenario A: doc.txt, text/plain, 2048 bytes, selected in the
initial state, is held with size 2048 and the outcome is clean. -/
theorem select_plain_text_resets_witness :
    docTxt.type = utf16 "text/plain" ∧
    (run initialState (FileUpload.handleFileChange App.handleFileChange [docTxt])).file.map File.size
      = some 2048 ∧
    run initialState (FileUpload.handleFileChange App.handleFileChange [docTxt])
      = selected initialState docTxt :=
  have h := select_plain_text_resets initialState docTxt [] rfl
  ⟨rfl, by rw [h.1]; rfl, h.1⟩

/-! ## encodeURIComponent: what the result is made of -/

theorem hexDigit_isUnescaped (n : Nat) : isUnescaped (hexDigit n) = true := by
  have h : n % 16 < 16 := Nat.mod_lt _ (by decide)
  unfold hexDigit
  generalize n % 16 = m at h
  interval_cases m <;> decide

theorem percentOctet_chars (o : Nat) :
    ∀ c ∈ percentOctet o, isUnescaped c = true ∨ c = 0x25 := by
  intro c hc
  simp only [percentOctet, List.mem_cons, List.mem_singleton, List.not_mem_nil, or_false] at hc
  rcases hc with rfl | rfl | rfl
  · exact Or.inr rfl
  · exact Or.inl (hexDigit_isUnescaped _)
  · exact Or.inl (hexDigit_isUnescaped _)

theorem percentEncode_chars (cp : Nat) :
    ∀ c ∈ percentEncode cp, isUnescaped c = true ∨ c = 0x25 := by
  intro c hc
  simp only [percentEncode, List.mem_flatMap] at hc
  obtain ⟨o, _, hco⟩ := hc
  exact percentOctet_chars o c hco

theorem enc_nil : encodeURIComponent [] = .ok [] := by
  simp only [encodeURIComponent]

theorem enc_cons (c : Nat) (rest : JSString) :
    encodeURIComponent (c :: rest) =
      if isUnescaped c then
        match encodeURIComponent rest with
        | .ok r => .ok (c :: r)
        | .error e => .error e
      else if isTrailSurrogate c then .error .uriError
      else if isLeadSurrogate c then
        match rest with
        | [] => .error .uriError
        | d :: rest2 =>
          if isTrailSurrogate d then
            match encodeURIComponent rest2 with
            | .ok r => .ok (percentEncode (pairCodePoint c d) ++ r)
            | .error e => .error e
          else .error .uriError
      else
        match encodeURIComponent rest with
        | .ok r => .ok (percentEncode c ++ r)
        | .error e => .error e := by
  cases rest <;> simp only [encodeURIComponent]

/-- Every code unit of an encoded component is an unescaped one or the
percent sign. -/
theorem encodeURIComponent_chars (s : JSString) :
    ∀ r, encodeURIComponent s = .ok r → ∀ c ∈ r, isUnescaped c = true ∨ c = 0x25 := by
  induction s using encodeURIComponent.induct with
  | case1 =>
    intro r h c hc
    rw [enc_nil] at h
    cases h
    simp at hc
  | case2 c rest hun r0 hrest ih =>
    intro r h x hx
    rw [enc_cons] at h
    simp [hun, hrest] at h
    subst h
    rcases List.mem_cons.mp hx with rfl | hx
    · exact Or.inl hun
    · exact ih r0 hrest x hx
  | case3 c rest hun e hrest ih =>
    intro r h
    rw [enc_cons] at h
    simp [hun, hrest] at h
  | case4 c rest hun htrail =>
    intro r h
    rw [enc_cons] at h
    simp [hun, htrail] at h
  | case5 c hun htrail hlead =>
    intro r h
    rw [enc_cons] at h
    simp [hun, htrail, hlead] at h
  | case6 c hun htrail hlead d rest2 hd r0 hrest ih =>
    intro r h x hx
    rw [enc_cons] at h
    simp [hun, htrail, hlead, hd, hrest] at h
    subst h
    rcases List.mem_append.mp hx with hx | hx
    · exact percentEncode_chars _ x hx
    · exact ih r0 hrest x hx
  | case7 c hun htrail hlead d rest2 hd e hrest ih =>
    intro r h
    rw [enc_cons] at h
    simp [hun, htrail, hlead, hd, hrest] at h
  | case8 c hun htrail hlead d rest2 hd =>
    intro r h
    rw [enc_cons] at h
    simp [hun, htrail, hlead, hd] at h
  | case9 c rest hun htrail hlead r0 hrest ih =>
    intro r h x hx
    rw [enc_cons] at h
    simp [hun, htrail, hlead, hrest] at h
    subst h
    rcases List.mem_append.mp hx with hx | hx
    · exact percentEncode_chars _ x hx
    · exact ih r0 hrest x hx
  | case10 c rest hun htrail hlead e hrest ih =>
    intro r h
    rw [enc_cons] at h
    simp [hun, htrail, hlead, hrest] at h

theorem isUnescaped_lt (c : Nat) (h : isUnescaped c = true) : c < 0x80 := by
  simp only [isUnescaped, Bool.or_eq_true, Bool.and_eq_true, decide_eq_true_eq, beq_iff_eq] at h
  omega

theorem isUnescaped_not_surrogate (c : Nat) (h : isUnescaped c = true) :
    isTrailSurrogate c = false ∧ isLeadSurrogate c = false := by
  have := isUnescaped_lt c h
  constructor
  · simp only [isTrailSurrogate, Bool.and_eq_false_iff, decide_eq_false_iff_not]
    omega
  · simp only [isLeadSurrogate, Bool.and_eq_false_iff, decide_eq_false_iff_not]
    omega

theorem isWellFormed_cons (c : Nat) (rest : JSString) :
    isWellFormed (c :: rest) =
      if isTrailSurrogate c then false
      else if isLeadSurrogate c then
        match rest with
        | [] => false
        | d :: rest2 => isTrailSurrogate d && isWellFormed rest2
      else isWellFormed rest := by
  cases rest <;> simp only [isWellFormed]

/-- The encoding succeeds exactly on the strings without an unpaired
surrogate. -/
theorem encodeURIComponent_ok_iff (s : JSString) :
    (∃ r, encodeURIComponent s = .ok r) ↔ isWellFormed s = true := by
  induction s using encodeURIComponent.induct with
  | case1 => simp [enc_nil, isWellFormed]
  | case2 c rest hun r0 hrest ih =>
    have hs := isUnescaped_not_surrogate c hun
    rw [enc_cons, isWellFormed_cons]
    simp [hun, hrest, hs.1, hs.2] at ih ⊢
    exact ih
  | case3 c rest hun e hrest ih =>
    have hs := isUnescaped_not_surrogate c hun
    rw [enc_cons, isWellFormed_cons]
    simp [hun, hrest, hs.1, hs.2] at ih ⊢
    exact ih
  | case4 c rest hun htrail =>
    rw [enc_cons, isWellFormed_cons]
    simp [hun, htrail]
  | case5 c hun htrail hlead =>
    rw [enc_cons, isWellFormed_cons]
    simp [hun, htrail, hlead]
  | case6 c hun htrail hlead d rest2 hd r0 hrest ih =>
    rw [enc_cons, isWellFormed_cons]
    simp [hun, htrail, hlead, hd, hrest] at ih ⊢
    exact ih
  | case7 c hun htrail hlead d rest2 hd e hrest ih =>
    rw [enc_cons, isWellFormed_cons]
    simp [hun, htrail, hlead, hd, hrest] at ih ⊢
    exact ih
  | case8 c hun htrail hlead d rest2 hd =>
    rw [enc_cons, isWellFormed_cons]
    simp [hun, htrail, hlead, hd]
  | case9 c rest hun htrail hlead r0 hrest ih =>
    rw [enc_cons, isWellFormed_cons]
    simp [hun, htrail, hlead, hrest] at ih ⊢
    exact ih
  | case10 c rest hun htrail hlead e hrest ih =>
    rw [enc_cons, isWellFormed_cons]
    simp [hun, htrail, hlead, hrest] at ih ⊢
    exact ih

/-- An encoded component holds neither a slash nor a space. -/
theorem encodeURIComponent_no_slash_no_space (s r : JSString)
    (h : encodeURIComponent s = .ok r) : 0x2F ∉ r ∧ 0x20 ∉ r := by
  constructor
  · intro hmem
    rcases encodeURIComponent_chars s r h _ hmem with h1 | h1
    · exact absurd h1 (by decide)
    · exact absurd h1 (by decide)
  · intro hmem
    rcases encodeURIComponent_chars s r h _ hmem with h1 | h1
    · exact absurd h1 (by decide)
    · exact absurd h1 (by decide)

/-- C9, as stated, fails: for a descriptor whose filePath is the single
unpaired surrogate U+D800 the download operation throws a URIError and builds
no address. -/
theorem download_throws_on_unpaired_surrogate :
    App.handleDownload
      (some { filePath := .str [0xD800], downloadName := .str (utf16 "doc_summary.txt") })
      = .error .uriError := by
  rfl

/-- C9, amended: for every download descriptor whose two fields convert to
strings `path` and `name` that hold no unpaired surrogate, the download
operation opens the address base + enc(path) + "/" + enc(name) with base the
fixed "http://localhost:5000" + "/api/download/" and enc the percent-encoding
of encodeURIComponent applied to each field on its own; neither encoded
segment holds a slash or a space, so what follows the base splits at slashes
into exactly the two segments. -/
theorem download_address (info : DownloadInfo) (path name : JSString)
    (hpath : info.filePath.toJSString = .ok path)
    (hname : info.downloadName.toJSString = .ok name)
    (hpathWell : isWellFormed path = true)
    (hnameWell : isWellFormed name = true) :
    ∃ encodedPath encodedName : JSString,
      encodeURIComponent path = .ok encodedPath ∧
      encodeURIComponent name = .ok encodedName ∧
      App.handleDownload (some info)
        = .ok [ .windowOpen (App.downloadBase ++ encodedPath ++ utf16 "/" ++ encodedName)
                  (utf16 "_blank"),
                .toastInfo (utf16 "Downloading summary...") ] ∧
      App.downloadBase = utf16 "http://localhost:5000" ++ utf16 "/api/download/" ∧
      0x2F ∉ encodedPath ∧ 0x20 ∉ encodedPath ∧
      0x2F ∉ encodedName ∧ 0x20 ∉ encodedName ∧
      (encodedPath ++ utf16 "/" ++ encodedName).splitOn 0x2F = [encodedPath, encodedName] := by
  obtain ⟨encodedPath, hp⟩ := (encodeURIComponent_ok_iff _).mpr hpathWell
  obtain ⟨encodedName, hn⟩ := (encodeURIComponent_ok_iff _).mpr hnameWell
  have hp2 := encodeURIComponent_no_slash_no_space _ _ hp
  have hn2 := encodeURIComponent_no_slash_no_space _ _ hn
  refine ⟨encodedPath, encodedName, hp, hn, ?_, by decide, hp2.1, hp2.2, hn2.1, hn2.2, ?_⟩
  · simp [App.handleDownload, hpath, hname, hp, hn]
  · have hsplit : (List.intercalate [0x2F] [encodedPath, encodedName]).splitOn 0x2F
        = [encodedPath, encodedName] :=
      List.splitOn_intercalate [encodedPath, encodedName] 0x2F
      (by
        intro l hl
        simp only [List.mem_cons, List.mem_singleton, List.not_mem_nil, or_false] at hl
        rcases hl with rfl | rfl
        · exact hp2.1
        · exact hn2.1)
      (by simp)
    have hjoin : List.intercalate [0x2F] [encodedPath, encodedName]
        = encodedPath ++ utf16 "/" ++ encodedName := by
      have : utf16 "/" = [0x2F] := by decide
      simp [List.intercalate, List.intersperse, this]
    rw [← hjoin]
    exact hsplit

set_option maxRecDepth 100000

/-- C9, at scenario E (filePath "abc", downloadName "doc_summary.txt") and at
a descriptor with a slash and a space. -/
theorem download_address_witness :
    (JSVal.str (utf16 "abc")).toJSString = .ok (utf16 "abc") ∧
    (JSVal.str (utf16 "doc_summary.txt")).toJSString = .ok (utf16 "doc_summary.txt") ∧
    isWellFormed (utf16 "abc") = true ∧
    isWellFormed (utf16 "doc_summary.txt") = true ∧
    (∃ encodedPath encodedName : JSString,
      encodeURIComponent (utf16 "abc") = .ok encodedPath ∧
      encodeURIComponent (utf16 "doc_summary.txt") = .ok encodedName ∧
      (encodedPath ++ utf16 "/" ++ encodedName).splitOn 0x2F = [encodedPath, encodedName]) ∧
    App.handleDownload
        (some { filePath := .str (utf16 "abc"), downloadName := .str (utf16 "doc_summary.txt") })
      = .ok [ .windowOpen (utf16 "http://localhost:5000/api/download/abc/doc_summary.txt")
                (utf16 "_blank"),
              .toastInfo (utf16 "Downloading summary...") ] ∧
    App.handleDownload
        (some { filePath := .str (utf16 "out/a b"), downloadName := .str (utf16 "my summary.txt") })
      = .ok [ .windowOpen
                (utf16 "http://localhost:5000/api/download/out%2Fa%20b/my%20summary.txt")
                (utf16 "_blank"),
              .toastInfo (utf16 "Downloading summary...") ] :=
  have h := download_address
    { filePath := .str (utf16 "abc"), downloadName := .str (utf16 "doc_summary.txt") }
    (utf16 "abc") (utf16 "doc_summary.txt") rfl rfl (by decide) (by decide)
  ⟨rfl, rfl, by decide, by decide,
    (by
      obtain ⟨p, n, hp, hn, _, _, _, _, _, _, hsplit⟩ := h
      exact ⟨p, n, hp, hn, hsplit⟩),
    rfl, rfl⟩

/-! ## Parameter controls -/

theorem control_sets_params (w : World) (c : SummaryControls.Control) :
    (w.step (.control c)).app.summaryParams =
      match c with
      | .ratioSlider position =>
        { w.app.summaryParams with ratio := some ((position.val + 1 : Rat) / 10) }
      | .minDecrement =>
        { w.app.summaryParams with min := mathMax (some 1) (w.app.summaryParams.min.sub (some 1)) }
      | .minTyped parsed => { w.app.summaryParams with min := ofParseInt parsed }
      | .minIncrement =>
        { w.app.summaryParams with min := mathMin (some 20) (w.app.summaryParams.min.add (some 1)) }
      | .maxDecrement =>
        { w.app.summaryParams with
          max := mathMax w.app.summaryParams.min (w.app.summaryParams.max.sub (some 1)) }
      | .maxTyped parsed => { w.app.summaryParams with max := ofParseInt parsed }
      | .maxIncrement =>
        { w.app.summaryParams with max := mathMin (some 50) (w.app.summaryParams.max.add (some 1)) } := by
  cases c <;> rfl

theorem withinRanges_iff (p : SummaryParams) :
    withinRanges p = true ↔
      ∃ r m M : Rat, p.ratio = some r ∧ p.min = some m ∧ p.max = some M ∧
        1 / 10 ≤ r ∧ r ≤ 9 / 10 ∧ 1 ≤ m ∧ m ≤ 20 ∧ M ≤ 50 := by
  obtain ⟨ratio, min, max⟩ := p
  cases ratio <;> cases min <;> cases max <;> simp [withinRanges, and_assoc]

/-- The slider and the four buttons keep each parameter inside its own range
(the order of min and max is another matter). -/
theorem buttons_keep_ranges_step (w : World) (c : SummaryControls.Control)
    (hc : c.isTyped = false) (h : withinRanges w.app.summaryParams = true) :
    withinRanges (w.step (.control c)).app.summaryParams = true := by
  rw [withinRanges_iff] at h ⊢
  obtain ⟨r, m, M, hr, hm, hM, h1, h2, h3, h4, h5⟩ := h
  rw [control_sets_params]
  cases c with
  | ratioSlider position =>
    refine ⟨(position.val + 1 : Rat) / 10, m, M, rfl, hm, hM, ?_, ?_, h3, h4, h5⟩
    · have : (0 : Rat) ≤ (position.val : Rat) := Nat.cast_nonneg _
      linarith
    · have : (position.val : Rat) ≤ 8 := by
        have := position.isLt
        exact_mod_cast Nat.lt_succ_iff.mp this
      linarith
  | minDecrement =>
    refine ⟨r, max 1 (m - 1), M, hr, ?_, hM, h1, h2, le_max_left _ _, ?_, h5⟩
    · simp [hm, mathMax, JSNum.sub]
    · exact max_le (by norm_num) (by linarith)
  | minTyped parsed => simp [SummaryControls.Control.isTyped] at hc
  | minIncrement =>
    refine ⟨r, min 20 (m + 1), M, hr, ?_, hM, h1, h2, ?_, min_le_left _ _, h5⟩
    · simp [hm, mathMin, JSNum.add]
    · exact le_min (by norm_num) (by linarith)
  | maxDecrement =>
    refine ⟨r, m, max m (M - 1), hr, hm, ?_, h1, h2, h3, h4, ?_⟩
    · simp [hm, hM, mathMax, JSNum.sub]
    · exact max_le (by linarith) (by linarith)
  | maxTyped parsed => simp [SummaryControls.Control.isTyped] at hc
  | maxIncrement =>
    refine ⟨r, m, min 50 (M + 1), hr, hm, ?_, h1, h2, h3, h4, min_le_left _ _⟩
    simp [hM, mathMin, JSNum.add]

/-- From the initial parameters, any sequence of slider moves and button
presses leaves 0.1 <= ratio <= 0.9, 1 <= min <= 20 and max <= 50. -/
theorem buttons_keep_ranges (cs : List SummaryControls.Control)
    (hcs : ∀ c ∈ cs, c.isTyped = false) :
    withinRanges (World.initial.steps (cs.map .control)).app.summaryParams = true := by
  have hinit : withinRanges World.initial.app.summaryParams = true := by
    rw [withinRanges_iff]
    exact ⟨3 / 10, 3, 10, rfl, rfl, rfl, by norm_num, by norm_num, by norm_num, by norm_num,
      by norm_num⟩
  generalize World.initial = w at hinit
  induction cs generalizing w with
  | nil => simpa [World.steps] using hinit
  | cons c rest ih =>
    have hstep := buttons_keep_ranges_step w c (hcs c (by simp)) hinit
    have := ih (fun x hx => hcs x (by simp [hx])) (w.step (.control c)) hstep
    simpa [World.steps] using this

/-- C8 fails on the code: from the initial parameters, eight presses of the
increment button of min store min = 11 above max = 10, and a typed min of 0,
a typed max of 99 and a cleared min field are stored as parsed (0, 99 and
NaN). -/
theorem min_increment_overtakes_max :
    (World.initial.steps (List.replicate 8 (.control .minIncrement))).app.summaryParams.min
      = some 11 ∧
    (World.initial.steps (List.replicate 8 (.control .minIncrement))).app.summaryParams.max
      = some 10 ∧
    JSNum.le
      (World.initial.steps (List.replicate 8 (.control .minIncrement))).app.summaryParams.min
      (World.initial.steps (List.replicate 8 (.control .minIncrement))).app.summaryParams.max
      = false ∧
    (World.initial.step (.control (.minTyped (some 0)))).app.summaryParams.min = some 0 ∧
    (World.initial.step (.control (.maxTyped (some 99)))).app.summaryParams.max = some 99 ∧
    (World.initial.step (.control (.minTyped none))).app.summaryParams.min = none := by
  have hmin : (World.initial.steps
      (List.replicate 8 (.control .minIncrement))).app.summaryParams.min = some 11 := by
    simp only [List.replicate, World.steps, List.foldl_cons, List.foldl_nil,
      control_sets_params]
    simp only [World.initial, initialState, JSNum.add, mathMin]
    norm_num
  have hmax : (World.initial.steps
      (List.replicate 8 (.control .minIncrement))).app.summaryParams.max = some 10 := by
    simp only [List.replicate, World.steps, List.foldl_cons, List.foldl_nil,
      control_sets_params]
    simp only [World.initial, initialState]
  refine ⟨hmin, hmax, ?_, ?_, ?_, ?_⟩
  · rw [hmin, hmax]
    simp only [JSNum.le]
    norm_num
  · rw [control_sets_params]
    simp [ofParseInt]
  · rw [control_sets_params]
    simp [ofParseInt]
  · rw [control_sets_params]
    simp [ofParseInt]

/-! ## A descriptor that outlives its submission -/

/-- C10 fails on the code: after a successful submission of the sample file
and a second submission (each started with the submit control enabled), the
descriptor of the first is still held while the second is in flight and after
it has ended in failure, and the download operation still opens the address
of the first. -/
theorem descriptor_survives_failure :
    App.submitDisabled (World.initial.steps (successThenFailure.take 1)).app = false ∧
    App.submitDisabled (World.initial.steps (successThenFailure.take 3)).app = false ∧
    (World.initial.steps (successThenFailure.take 4)).app.loading = true ∧
    (World.initial.steps (successThenFailure.take 4)).app.downloadInfo
      = some { filePath := .str (utf16 "abc"), downloadName := .str (utf16 "doc_summary.txt") } ∧
    (World.initial.steps successThenFailure).app.error = .str (utf16 "file too short") ∧
    (World.initial.steps successThenFailure).app.summary = .str [] ∧
    (World.initial.steps successThenFailure).app.loading = false ∧
    (World.initial.steps successThenFailure).app.downloadInfo
      = some { filePath := .str (utf16 "abc"), downloadName := .str (utf16 "doc_summary.txt") } ∧
    App.handleDownload (World.initial.steps successThenFailure).app.downloadInfo
      = .ok [ .windowOpen (utf16 "http://localhost:5000/api/download/abc/doc_summary.txt")
                (utf16 "_blank"),
              .toastInfo (utf16 "Downloading summary...") ] := by
  refine ⟨rfl, rfl, rfl, rfl, rfl, rfl, rfl, rfl, rfl⟩

/-! ## One outcome at a time -/

theorem field_ok_of_field_ok (data v : JSVal) (key other : JSString)
    (h : data.field key = .ok v) : ∃ v2, data.field other = .ok v2 := by
  cases data <;> simp [JSVal.field] at h ⊢

/-- The settled part of handleSubmit, run in a state with empty summary text
and error message, clears the busy flag, keeps the file and stores a summary
text or an error message, never both. -/
theorem settled_outcome (s : AppState) (result : App.FetchResult)
    (hs : s.summary = .str []) (he : s.error = .str []) :
    (run s (App.handleSubmitSettled result)).loading = false ∧
    (run s (App.handleSubmitSettled result)).file = s.file ∧
    ((run s (App.handleSubmitSettled result)).summary = .str [] ∨
      (run s (App.handleSubmitSettled result)).error = .str []) := by
  obtain ⟨body, hbody, hframe⟩ := handleSubmitSettled_shape result
  refine ⟨?_, ?_, ?_⟩
  · rw [hbody, run_append]
    rfl
  · rw [hbody, run_append]
    exact run_keepsFile s body (fun e he => (hframe e he).2)
  · rcases result with err | ⟨ok, json⟩
    · left
      simp [App.handleSubmitSettled, App.tryBlock, App.catchBlock, App.finallyBlock, run,
        Effect.apply, hs]
    · rcases json with err | data
      · left
        simp [App.handleSubmitSettled, App.tryBlock, App.catchBlock, App.finallyBlock, run,
          Effect.apply, hs]
      · cases ok
        · -- failure status
          rcases hfield : data.field (utf16 "error") with err | v
          · left
            simp [App.handleSubmitSettled, App.tryBlock, hfield, App.catchBlock,
              App.finallyBlock, run, Effect.apply, hs]
          · left
            simp [App.handleSubmitSettled, App.tryBlock, hfield,
              App.finallyBlock, run, Effect.apply, hs]
        · -- success status
          rcases hsum : data.field (utf16 "summary") with err | v
          · left
            simp [App.handleSubmitSettled, App.tryBlock, hsum, App.catchBlock,
              App.finallyBlock, run, Effect.apply, hs]
          · obtain ⟨p, hp⟩ := field_ok_of_field_ok data v _ (utf16 "file_path") hsum
            obtain ⟨d, hd⟩ := field_ok_of_field_ok data v _ (utf16 "download_name") hsum
            right
            simp [App.handleSubmitSettled, App.tryBlock, hsum, hp, hd,
              App.finallyBlock, run, Effect.apply, he]

/-- Both channels lead a valid candidate to the state of a valid selection. -/
theorem select_plain_text_frame (s : AppState) (file : File) (rest : List File)
    (htype : file.type = utf16 "text/plain") :
    run s (FileUpload.handleFileChange App.handleFileChange (file :: rest)) = selected s file ∧
    run s (FileUpload.handleDrop App.handleFileChange (some (file :: rest)))
      = selected s file := by
  have hbrowse : FileUpload.handleFileChange App.handleFileChange (file :: rest)
      = App.handleFileChange file := by
    simp [FileUpload.handleFileChange, htype]
  have hdrop : FileUpload.handleDrop App.handleFileChange (some (file :: rest))
      = [.preventDefault, .stopPropagation] ++ App.handleFileChange file := by
    simp [FileUpload.handleDrop, htype]
  rw [hbrowse, hdrop]
  exact ⟨rfl, rfl⟩

/-- A selection through either channel leaves the state as it is or leads to
the state of a valid selection. -/
theorem browse_outcome (s : AppState) (files : List File) :
    run s (FileUpload.handleFileChange App.handleFileChange files) = s ∨
    ∃ file, run s (FileUpload.handleFileChange App.handleFileChange files) = selected s file := by
  cases files with
  | nil => exact Or.inl rfl
  | cons file rest =>
    by_cases htype : file.type = utf16 "text/plain"
    · exact Or.inr ⟨file, (select_plain_text_frame s file rest htype).1⟩
    · left
      simp [FileUpload.handleFileChange, htype, run, Effect.apply]

theorem drop_outcome (s : AppState) (files : Option (List File)) :
    run s (FileUpload.handleDrop App.handleFileChange files) = s ∨
    ∃ file, run s (FileUpload.handleDrop App.handleFileChange files) = selected s file := by
  cases files with
  | none => exact Or.inl rfl
  | some list =>
    cases list with
    | nil => exact Or.inl rfl
    | cons file rest =>
      by_cases htype : file.type = utf16 "text/plain"
      · exact Or.inr ⟨file, (select_plain_text_frame s file rest htype).2⟩
      · left
        simp [FileUpload.handleDrop, htype, run, Effect.apply]

theorem selected_consistent (w : World) (file : File) (h : w.Consistent) :
    World.Consistent { w with app := selected w.app file } where
  atMostOne := h.atMostOne
  busyIff := h.busyIff
  busyClean := fun _ => ⟨rfl, rfl⟩
  busyFile := fun _ hnone => by simp [selected] at hnone
  summaryFile := fun _ => rfl
  notBoth := Or.inl rfl

/-- Every admitted event keeps the world consistent. -/
theorem step_consistent (w : World) (e : Event) (hadm : e.admitted w = true)
    (h : w.Consistent) : (w.step e).Consistent := by
  cases e with
  | browse files =>
    rcases browse_outcome w.app files with hsame | ⟨file, hsel⟩
    · simp only [World.step, hsame]
      exact h
    · simp only [World.step, hsel]
      exact selected_consistent w file h
  | drop files =>
    rcases drop_outcome w.app files with hsame | ⟨file, hsel⟩
    · simp only [World.step, hsame]
      exact h
    · simp only [World.step, hsel]
      exact selected_consistent w file h
  | control c =>
    cases c <;> exact ⟨h.atMostOne, h.busyIff, h.busyClean, h.busyFile, h.summaryFile, h.notBoth⟩
  | submit =>
    rcases hfile : w.app.file with _ | f
    · have hstep : w.step .submit
          = { app := { w.app with error := .str App.noFileMessage }, inFlight := w.inFlight } := by
        simp [World.step, hfile, App.handleSubmitStart, run, Effect.apply, requestsOf]
      rw [hstep]
      exact {
        atMostOne := h.atMostOne
        busyIff := h.busyIff
        busyClean := fun hbusy => absurd hfile (h.busyFile hbusy)
        busyFile := h.busyFile
        summaryFile := fun _ => h.summaryFile hfile
        notBoth := Or.inl (h.summaryFile hfile) }
    · have hload : w.app.loading = false := by
        simpa [Event.admitted, App.submitDisabled, hfile] using hadm
      have hnil : w.inFlight = [] := by
        by_contra hne
        have := h.busyIff.mpr hne
        rw [hload] at this
        exact Bool.false_ne_true this
      have hstep : w.step .submit
          = { app := { w.app with loading := true, error := .str [], summary := .str [] },
              inFlight := [App.summarizeRequest f w.app.summaryParams] } := by
        simp [World.step, hfile, hnil, App.handleSubmitStart, run, Effect.apply, requestsOf]
      rw [hstep]
      exact {
        atMostOne := by simp
        busyIff := by simp
        busyClean := fun _ => ⟨rfl, rfl⟩
        busyFile := fun _ => by simp [hfile]
        summaryFile := fun _ => rfl
        notBoth := Or.inl rfl }
  | settle result =>
    rcases hfl : w.inFlight with _ | ⟨req, rest⟩
    · simp only [World.step, hfl]
      exact h
    · have hbusy : w.app.loading = true := h.busyIff.mpr (by simp [hfl])
      obtain ⟨hs, he⟩ := h.busyClean hbusy
      obtain ⟨hload, hkeep, hnot⟩ := settled_outcome w.app result hs he
      have hrest : rest = [] := by
        have := h.atMostOne
        rw [hfl] at this
        simpa using this
      simp only [World.step, hfl, hrest]
      exact {
        atMostOne := by simp
        busyIff := by simp [hload]
        busyClean := fun hb => by simp [hload] at hb
        busyFile := fun hb => by simp [hload] at hb
        summaryFile := fun hnone => by
          rw [hkeep] at hnone
          exact absurd hnone (h.busyFile hbusy)
        notBoth := hnot }
  | download => exact h

theorem initial_consistent : World.initial.Consistent where
  atMostOne := by simp [World.initial]
  busyIff := by simp [World.initial, initialState]
  busyClean := fun _ => ⟨rfl, rfl⟩
  busyFile := fun hb => by simp [World.initial, initialState] at hb
  summaryFile := fun _ => rfl
  notBoth := Or.inl rfl

theorem steps_consistent (w : World) (events : List Event) (hadm : w.admits events = true)
    (h : w.Consistent) : (w.steps events).Consistent := by
  induction events generalizing w with
  | nil => exact h
  | cons e rest ih =>
    simp only [World.admits, Bool.and_eq_true] at hadm
    have := ih (w.step e) hadm.2 (step_consistent w e hadm.1 h)
    simpa [World.steps] using this

/-- C12: in every state reached from the initial state by file selections,
parameter updates, submissions and their settling, where a submission starts
only with the submit control enabled or with no Document held, the summary
text and the error message are never both non-empty (one of them is the empty
string, so they are not both truthy either), both are empty whenever the busy
flag is true, and so they are right after a submission has started. -/
theorem one_outcome_at_a_time (events : List Event)
    (hadm : World.initial.admits events = true) :
    ((World.initial.steps events).app.summary = .str [] ∨
      (World.initial.steps events).app.error = .str []) ∧
    ¬ ((World.initial.steps events).app.summary.truthy = true ∧
      (World.initial.steps events).app.error.truthy = true) ∧
    ((World.initial.steps events).app.loading = true →
      (World.initial.steps events).app.summary = .str [] ∧
      (World.initial.steps events).app.error = .str []) ∧
    (Event.admitted (World.initial.steps events) .submit = true →
      ((World.initial.steps events).step .submit).app.loading = true →
      ((World.initial.steps events).step .submit).app.summary = .str [] ∧
      ((World.initial.steps events).step .submit).app.error = .str []) := by
  have h := steps_consistent World.initial events hadm initial_consistent
  refine ⟨h.notBoth, ?_, h.busyClean, ?_⟩
  · rintro ⟨hs, he⟩
    rcases h.notBoth with h0 | h0
    · rw [h0] at hs
      simp [JSVal.truthy] at hs
    · rw [h0] at he
      simp [JSVal.truthy] at he
  · intro hsub
    exact (step_consistent _ .submit hsub h).busyClean

/-- C12, at a run with a submit attempted with no file held, a failed
submission, a new selection and a successful submission. -/
theorem one_outcome_at_a_time_witness :
    World.initial.admits admittedRun = true ∧
    ((World.initial.steps admittedRun).app.summary = .str [] ∨
      (World.initial.steps admittedRun).app.error = .str []) ∧
    (World.initial.steps admittedRun).app.summary = .str (utf16 "S1. S2.") ∧
    (World.initial.steps (admittedRun.take 4)).app.error = .str (utf16 "file too short") ∧
    (World.initial.steps (admittedRun.take 4)).app.summary = .str [] :=
  ⟨by decide, (one_outcome_at_a_time admittedRun (by decide)).1, rfl, rfl, rfl⟩

theorem waits_admitted (w : World) (e : Event) (h : e.waits w = true) :
    e.admitted w = true := by
  cases e <;> simp_all [Event.waits, Event.admitted]

theorem selected_attributed (w : World) (origin : Option File) (file : File)
    (h : w.Attributed origin) (hidle : w.app.loading = false) :
    World.Attributed { w with app := selected w.app file } origin where
  consistent := selected_consistent w file h.consistent
  pending := by
    have hnil : w.inFlight = [] := by
      by_contra hne
      have := h.consistent.busyIff.mpr hne
      rw [hidle] at this
      exact Bool.false_ne_true this
    intro req hreq
    rw [hnil] at hreq
    simp at hreq
  belongs := by
    intro hres
    simp [holdsResult, selected] at hres

/-- Every event that waits keeps the attribution. -/
theorem step_attributed (w : World) (origin : Option File) (e : Event)
    (hwait : e.waits w = true) (h : w.Attributed origin) :
    (w.step e).Attributed (w.originAfter origin e) := by
  have hcons := step_consistent w e (waits_admitted w e hwait) h.consistent
  cases e with
  | browse files =>
    have hidle : w.app.loading = false := by simpa [Event.waits] using hwait
    rcases browse_outcome w.app files with hsame | ⟨file, hsel⟩
    · simp only [World.step, hsame, World.originAfter]
      exact h
    · simp only [World.step, hsel, World.originAfter]
      exact selected_attributed w origin file h hidle
  | drop files =>
    have hidle : w.app.loading = false := by simpa [Event.waits] using hwait
    rcases drop_outcome w.app files with hsame | ⟨file, hsel⟩
    · simp only [World.step, hsame, World.originAfter]
      exact h
    · simp only [World.step, hsel, World.originAfter]
      exact selected_attributed w origin file h hidle
  | control c =>
    cases c <;> exact ⟨hcons, h.pending, h.belongs⟩
  | submit =>
    have hdis : App.submitDisabled w.app = false := by simpa [Event.waits] using hwait
    rcases hfile : w.app.file with _ | f
    · simp [App.submitDisabled, hfile] at hdis
    · have hstep : w.step .submit
          = { app := { w.app with loading := true, error := .str [], summary := .str [] },
              inFlight := w.inFlight ++ [App.summarizeRequest f w.app.summaryParams] } := by
        simp [World.step, hfile, App.handleSubmitStart, run, Effect.apply, requestsOf]
      have hload : w.app.loading = false := by
        simpa [App.submitDisabled, hfile] using hdis
      have hnil : w.inFlight = [] := by
        by_contra hne
        have := h.consistent.busyIff.mpr hne
        rw [hload] at this
        exact Bool.false_ne_true this
      refine ⟨hcons, ?_, ?_⟩
      · intro req hreq
        rw [hstep, hnil] at hreq
        simp at hreq
        rw [hstep, hreq]
        simp [App.summarizeRequest, hfile]
      · intro hres
        rw [hstep] at hres ⊢
        simp only [holdsResult, ne_eq, not_true_eq_false, false_or] at hres
        exact h.belongs (Or.inr (Or.inr hres))
  | settle result =>
    rcases hfl : w.inFlight with _ | ⟨req, rest⟩
    · have hstep : w.step (.settle result) = w := by simp [World.step, hfl]
      have horigin : w.originAfter origin (.settle result) = origin := by
        simp [World.originAfter, hfl]
      rw [hstep, horigin]
      exact h
    · have hbusy : w.app.loading = true := h.consistent.busyIff.mpr (by simp [hfl])
      obtain ⟨hs, he⟩ := h.consistent.busyClean hbusy
      obtain ⟨_, hkeep, _⟩ := settled_outcome w.app result hs he
      have hrest : rest = [] := by
        have := h.consistent.atMostOne
        rw [hfl] at this
        simpa using this
      have hreq : some req.file = w.app.file := h.pending req (by simp [hfl])
      have hstep : w.step (.settle result)
          = { app := run w.app (App.handleSubmitSettled result), inFlight := [] } := by
        simp [World.step, hfl, hrest]
      have horigin : w.originAfter origin (.settle result) = some req.file := by
        simp [World.originAfter, hfl]
      refine ⟨hcons, ?_, ?_⟩
      · intro r hr
        rw [hstep] at hr
        simp at hr
      · intro _
        rw [horigin, hstep, hreq]
        exact hkeep.symm
  | download => exact h

theorem steps_attributed (w : World) (origin : Option File) (events : List Event)
    (hwait : w.waits events = true) (h : w.Attributed origin) :
    (w.steps events).Attributed (w.originOf origin events) := by
  induction events generalizing w origin with
  | nil => exact h
  | cons e rest ih =>
    simp only [World.waits, Bool.and_eq_true] at hwait
    have := ih (w.step e) (w.originAfter origin e) hwait.2 (step_attributed w origin e hwait.1 h)
    simpa [World.steps, World.originOf] using this

/-- What does hold of the results: when a submission starts only with a file
held and the busy flag clear, and a file is selected only while the busy flag
is clear, a summary text, error message or download descriptor in the state
comes from a request that was sent with the held file. -/
theorem results_belong_when_selection_waits (events : List Event)
    (hwait : World.initial.waits events = true)
    (hres : holdsResult (World.initial.steps events).app) :
    World.initial.originOf none events = (World.initial.steps events).app.file := by
  have hinit : World.initial.Attributed none := by
    refine ⟨initial_consistent, ?_, ?_⟩
    · intro req hreq
      simp [World.initial] at hreq
    · intro h
      simp [holdsResult, World.initial, initialState] at h
  exact (steps_attributed World.initial none events hwait hinit).belongs hres

/-- The same at a run in which notes.txt is selected between two submissions:
the error message of the second belongs to notes.txt, the held file. -/
theorem results_belong_when_selection_waits_example :
    World.initial.waits selectionBetween = true ∧
    (World.initial.steps selectionBetween).app.error = .str (utf16 "file too short") ∧
    (World.initial.steps selectionBetween).app.file = some notesTxt ∧
    World.initial.originOf none selectionBetween
      = (World.initial.steps selectionBetween).app.file :=
  ⟨by decide, rfl, rfl,
    results_belong_when_selection_waits selectionBetween (by decide)
      (Or.inr (Or.inl (fun h => by
        have hlen := congrArg (fun v => match v with | JSVal.str s => s.length | _ => 0) h
        revert hlen
        decide)))⟩

/-! ## Results and the file they belong to -/

/-- C11 fails on the code: the sample file is selected and submitted (the
submit control enabled), notes.txt is selected while the request for the
sample file is in flight, and the request then succeeds: the summary text and
the download descriptor produced for doc.txt are stored and offered while
notes.txt is the held Document. -/
theorem result_outlives_selection :
    World.initial.startsIdle selectionInFlight = true ∧
    (World.initial.steps (selectionInFlight.take 3)).inFlight.map Request.file = [docTxt] ∧
    (World.initial.steps (selectionInFlight.take 3)).app.file = some notesTxt ∧
    World.initial.originOf none selectionInFlight = some docTxt ∧
    (World.initial.steps selectionInFlight).app.file = some notesTxt ∧
    (World.initial.steps selectionInFlight).app.summary = .str (utf16 "S1. S2.") ∧
    (World.initial.steps selectionInFlight).app.downloadInfo
      = some { filePath := .str (utf16 "abc"), downloadName := .str (utf16 "doc_summary.txt") } ∧
    App.handleDownload (World.initial.steps selectionInFlight).app.downloadInfo
      = .ok [ .windowOpen (utf16 "http://localhost:5000/api/download/abc/doc_summary.txt")
                (utf16 "_blank"),
              .toastInfo (utf16 "Downloading summary...") ] ∧
    docTxt ≠ notesTxt := by
  refine ⟨by decide, rfl, rfl, rfl, rfl, rfl, rfl, rfl, ?_⟩
  intro h
  have hname : docTxt.name = notesTxt.name := congrArg File.name h
  revert hname
  decide

end Summarizer
